import Mathlib

/- Shallow embedding of the PlainID git-backup tool:
   cmd/backup.go, cmd/restore.go (restore and list commands), cmd/root.go
   and plainid/plainid-service.go, together with theorems checking the
   natural-language specification against this embedding. -/

/-- Calendar timestamp used for snapshot tag names.
Mirrors the fields of a Go time.Time that the tag format touches. -/
structure DateTime where
  year : Nat
  month : Nat
  day : Nat
  hour : Nat
  minute : Nat
  second : Nat
deriving DecidableEq, Repr

/-- Decimal digit character for d mod 10. -/
def digitChar (d : Nat) : Char :=
  match d % 10 with
  | 9 => '9'
  | 8 => '8'
  | 7 => '7'
  | 6 => '6'
  | 5 => '5'
  | 4 => '4'
  | 3 => '3'
  | 2 => '2'
  | 1 => '1'
  | _ => '0'

/-- Two-digit zero-padded decimal rendering, as Go layout "01"/"02"/"15"/"04"/"05"
renders month, day, hour, minute and second values below 100. -/
def pad2 (n : Nat) : List Char :=
  [digitChar (n / 10), digitChar n]

/-- Four-digit zero-padded decimal rendering, as Go layout "2006" renders
years below 10000. -/
def pad4 (n : Nat) : List Char :=
  [digitChar (n / 1000), digitChar (n / 100), digitChar (n / 10), digitChar n]

/-- The tag name created by backupCmd:
time.Now().Format("20060102-150405") (backup.go line 301). -/
def formatTimestamp (t : DateTime) : String :=
  String.mk (pad4 t.year ++ pad2 t.month ++ pad2 t.day ++ ['-'] ++
    pad2 t.hour ++ pad2 t.minute ++ pad2 t.second)

/-- Numeric value of a decimal digit character, none for other characters. -/
def digitVal (c : Char) : Option Nat :=
  match c with
  | '9' => some 9
  | '8' => some 8
  | '7' => some 7
  | '6' => some 6
  | '5' => some 5
  | '4' => some 4
  | '3' => some 3
  | '2' => some 2
  | '1' => some 1
  | '0' => some 0
  | _ => none

/-- Value of a fixed two-digit decimal field. -/
def d2v (a b : Char) : Option Nat :=
  match digitVal a, digitVal b with
  | some x, some y => some (10 * x + y)
  | _, _ => none

/-- Value of a fixed four-digit decimal field. -/
def d4v (a b c d : Char) : Option Nat :=
  match digitVal a, digitVal b, digitVal c, digitVal d with
  | some w, some x, some y, some z => some (1000 * w + 100 * x + 10 * y + z)
  | _, _, _, _ => none

/-- Gregorian leap-year rule as implemented by Go time.isLeap. -/
def isLeapYear (y : Nat) : Bool :=
  y % 4 == 0 && (y % 100 != 0 || y % 400 == 0)

/-- Number of days of a month, as Go time uses to range-check a parsed day. -/
def daysIn (mo y : Nat) : Nat :=
  if mo = 2 then (if isLeapYear y then 29 else 28)
  else if mo = 4 ∨ mo = 6 ∨ mo = 9 ∨ mo = 11 then 30
  else 31

/-- The snapshot-catalog tag-name recognizer:
time.Parse("20060102-150405", tagName) in listCmd (restore.go lines 386-394).
Succeeds exactly on strings of shape YYYYMMDD-HHMMSS whose fields are in
range, returning the parsed fields. -/
def parseTimestamp (s : String) : Option DateTime :=
  match s.data with
  | [a1, a2, a3, a4, b1, b2, c1, c2, sep, e1, e2, f1, f2, g1, g2] =>
    if sep = '-' then
      match d4v a1 a2 a3 a4, d2v b1 b2, d2v c1 c2, d2v e1 e2, d2v f1 f2, d2v g1 g2 with
      | some y, some mo, some dd, some hh, some mi, some ss =>
        if 1 ≤ mo ∧ mo ≤ 12 ∧ 1 ≤ dd ∧ dd ≤ daysIn mo y ∧ hh ≤ 23 ∧ mi ≤ 59 ∧ ss ≤ 59 then
          some ⟨y, mo, dd, hh, mi, ss⟩
        else none
      | _, _, _, _, _, _ => none
    else none
  | _ => none

/-- Side condition under which a DateTime is a possible wall-clock reading:
all fields in calendar range and the year under five digits. -/
def validDT (t : DateTime) : Prop :=
  t.year ≤ 9999 ∧ 1 ≤ t.month ∧ t.month ≤ 12 ∧ 1 ≤ t.day ∧
    t.day ≤ daysIn t.month t.year ∧ t.hour ≤ 23 ∧ t.minute ≤ 59 ∧ t.second ≤ 59

instance (t : DateTime) : Decidable (validDT t) := by
  unfold validDT
  infer_instance

/-- The tag-name format the specification asserts: YYYYMMDDHHMMSS,
fourteen digits with no separator. -/
def claimTagFormat (s : String) : Bool :=
  s.data.length == 14 && s.data.all Char.isDigit

/-- A configured or resolved workspace (config.Workspace: ID plus Name). -/
structure CfgWorkspace where
  id : String
  name : String
deriving DecidableEq, Repr

/-- A configured or resolved environment (config.Environment: ID, Name,
workspace list and identity selector list). -/
structure CfgEnv where
  id : String
  name : String
  workspaces : List CfgWorkspace
  identities : List String
deriving DecidableEq, Repr

/-- The commit message built by backupCmd (backup.go lines 302 and 346):
start from the fixed text and append one pair of tokens per workspace of
each environment, in processing order. -/
def commitMessage (envs : List CfgEnv) : String :=
  envs.foldl
    (fun acc env =>
      env.workspaces.foldl
        (fun acc2 ws => acc2 ++ (" env:" ++ env.id ++ " ws:" ++ ws.id)) acc)
    "Backup PlainID configuration for:"

/-- The per-workspace token pairs the specification describes: one
" env:<id> ws:<id>" fragment per workspace processed, in processing order,
the environment token repeated once per workspace. -/
def workspacePairTokens (envs : List CfgEnv) : List String :=
  envs.flatMap (fun env => env.workspaces.map (fun ws => " env:" ++ env.id ++ " ws:" ++ ws.id))

/-- Go strings.Contains: substring containment. -/
def strContains (s pat : String) : Bool :=
  decide (List.IsInfix pat.data s.data)

/-- Split a character list on spaces, as strings.Split(msg, " ") does. -/
def splitTokensAux : List Char → List Char → List (List Char)
  | [], acc => [acc.reverse]
  | c :: rest, acc =>
    if c = ' ' then acc.reverse :: splitTokensAux rest []
    else splitTokensAux rest (c :: acc)

/-- Space-delimited token membership, the reading of "contains env:E as a
token": one of the space-separated words of the message equals the token. -/
def hasToken (msg tok : String) : Bool :=
  (splitTokensAux msg.data []).contains tok.data

/-- A git tag as the catalog sees it: its short name and its annotated
message (empty when the tag object has no readable message). -/
structure GitTag where
  name : String
  message : String
deriving DecidableEq, Repr

/-- A parsed catalog row (tagInfo in restore.go, the fields the filter and
sort touch). -/
structure TagInfo where
  name : String
  time : DateTime
  message : String
deriving DecidableEq, Repr

/-- Chronological key of a parsed timestamp; strictly monotone on
in-range fields, mirroring comparison of the parsed time.Time values. -/
def dtKey (t : DateTime) : Nat :=
  ((((t.year * 13 + t.month) * 32 + t.day) * 24 + t.hour) * 60 + t.minute) * 60 + t.second

/-- The filter step of listCmd (restore.go lines 404-412): when both filter
ids are supplied, keep a tag only when its message contains both
"env:<filterEnv>" and "ws:<filterWs>" via strings.Contains. -/
def passesFilter (envF wsF msg : String) : Bool :=
  if envF != "" && wsF != "" then
    strContains msg ("env:" ++ envF) && strContains msg ("ws:" ++ wsF)
  else true

/-- The tag scan of listCmd: keep tags whose name parses under the
timestamp layout, then apply the message filter. -/
def snapshotRows (tags : List GitTag) (envF wsF : String) : List TagInfo :=
  tags.filterMap (fun t =>
    match parseTimestamp t.name with
    | none => none
    | some tm =>
      if passesFilter envF wsF t.message then some ⟨t.name, tm, t.message⟩ else none)

/-- Insert a row into a list sorted newest first. -/
def insertByTime (x : TagInfo) : List TagInfo → List TagInfo
  | [] => [x]
  | y :: ys => if dtKey y.time ≤ dtKey x.time then x :: y :: ys else y :: insertByTime x ys

/-- The sort of listCmd (sort.Slice with the After comparison): order the
rows newest first by parsed timestamp. -/
def sortByTimeDesc : List TagInfo → List TagInfo
  | [] => []
  | x :: xs => insertByTime x (sortByTimeDesc xs)

/-- The catalog listing of listCmd: scan, sort newest first by parsed
timestamp, present at most the ten most recent. -/
def listSnapshots (tags : List GitTag) (envF wsF : String) : List TagInfo :=
  (sortByTimeDesc (snapshotRows tags envF wsF)).take 10

/-- A live environment returned by the inventory query
plainIDService.Environments(). -/
structure ApiEnv where
  id : String
  name : String
deriving DecidableEq, Repr

/-- A live workspace returned by plainIDService.Workspaces(envId). -/
structure ApiWorkspace where
  id : String
  name : String
deriving DecidableEq, Repr

/-- A live identity entry returned by plainIDService.Identities(envId);
rootCmd only reads its TemplateID. -/
structure ApiIdentity where
  templateId : String
deriving DecidableEq, Repr

/-- The live inventory the scope resolver queries (environments, and for
each environment id its workspaces and identity templates). -/
structure Inventory where
  envs : List ApiEnv
  workspaces : String → List ApiWorkspace
  identities : String → List ApiIdentity

/-- config.PlainIDConfig.HasWildcardEnvironment: some configured
environment has the wildcard id. -/
def hasWildcardEnvironment (envs : List CfgEnv) : Bool :=
  envs.any (fun e => e.id == "*")

/-- config.Environment.HasWildcardWorkspace: some configured workspace of
the environment has the wildcard id. -/
def hasWildcardWorkspace (e : CfgEnv) : Bool :=
  e.workspaces.any (fun w => w.id == "*")

/-- Environment.HasWildcardIdentities: some configured identity selector
of the environment is the wildcard token. -/
def hasWildcardIdentities (e : CfgEnv) : Bool :=
  e.identities.any (fun i => i == "*")

/-- Step 1 of rootCmd scope resolution (root.go lines 41-64): a wildcard
environment selector is replaced by every live environment, each given a
wildcard workspace list and a wildcard identity list; otherwise each
declared environment is matched against live inventory by id (first match
wins), dropped when absent, and given the live name. -/
def resolveEnvs (inv : Inventory) (cfgEnvs : List CfgEnv) : List CfgEnv :=
  if hasWildcardEnvironment cfgEnvs then
    inv.envs.map (fun ae =>
      CfgEnv.mk ae.id ae.name [CfgWorkspace.mk "*" ""] ["*"])
  else
    cfgEnvs.filterMap (fun ce =>
      (inv.envs.find? (fun ae => ae.id == ce.id)).map (fun ae => { ce with name := ae.name }))

/-- Step 2 of rootCmd scope resolution (root.go lines 66-94): a wildcard
workspace selector is replaced by every live workspace of the environment;
otherwise declared workspaces are matched by id, dropped when absent, and
given the live name. -/
def resolveWorkspaces (inv : Inventory) (envs : List CfgEnv) : List CfgEnv :=
  envs.map (fun e =>
    { e with workspaces :=
        if hasWildcardWorkspace e then
          (inv.workspaces e.id).map (fun aw => { id := aw.id, name := aw.name })
        else
          e.workspaces.filterMap (fun cw =>
            ((inv.workspaces e.id).find? (fun aw => aw.id == cw.id)).map
              (fun aw => { cw with name := aw.name })) })

/-- Step 3 of rootCmd scope resolution (root.go lines 96-110): a wildcard
identity selector is replaced by every live identity template id of the
environment; otherwise the declared identity strings are kept unchanged. -/
def resolveIdentities (inv : Inventory) (envs : List CfgEnv) : List CfgEnv :=
  envs.map (fun e =>
    if hasWildcardIdentities e then
      { e with identities := (inv.identities e.id).map (fun i => i.templateId) }
    else e)

/-- The whole scope resolution performed once per invocation by rootCmd
PersistentPreRunE before cfg.PlainID.Envs is overwritten. -/
def resolveScope (inv : Inventory) (cfgEnvs : List CfgEnv) : List CfgEnv :=
  resolveIdentities inv (resolveWorkspaces inv (resolveEnvs inv cfgEnvs))

/-- No wildcard token remains anywhere in a resolved scope. -/
def noWildcardScope (envs : List CfgEnv) : Bool :=
  envs.all (fun e =>
    e.id != "*" && e.workspaces.all (fun w => w.id != "*") &&
      e.identities.all (fun i => i != "*"))

/-- One on-disk entry: a file with content, or a directory with entries.
The entry list order stands for directory-listing order. -/
inductive FsEntry where
  | file (name : String) (content : String)
  | dir (name : String) (entries : List FsEntry)

/-- Name of an entry. -/
def entryName : FsEntry → String
  | .file n _ => n
  | .dir n _ => n

/-- removeFilesOnly (backup.go lines 552-579): walk a directory, delete
every plain file, recurse into every subdirectory, keeping the directory
skeleton in place. -/
def removeFilesOnly : List FsEntry → List FsEntry
  | [] => []
  | .file _ _ :: rest => removeFilesOnly rest
  | .dir n es :: rest => .dir n (removeFilesOnly es) :: removeFilesOnly rest

/-- Whether any plain file exists anywhere in a tree. -/
def containsFile : List FsEntry → Bool
  | [] => false
  | .file _ _ :: _ => true
  | .dir _ es :: rest => containsFile es || containsFile rest

/-- The directory skeleton of a tree: every file dropped, recursively. -/
def dirSkeleton : List FsEntry → List FsEntry
  | [] => []
  | .file _ _ :: rest => dirSkeleton rest
  | .dir n es :: rest => .dir n (dirSkeleton es) :: dirSkeleton rest

/-- First directory entry of the given name, returning its entries. -/
def lookupDir (nm : String) : List FsEntry → Option (List FsEntry)
  | [] => none
  | .file n _ :: rest => if n = nm then none else lookupDir nm rest
  | .dir n es :: rest => if n = nm then some es else lookupDir nm rest

/-- The per-workspace reset of backupCmd (backup.go lines 332-339):
os.RemoveAll(wsDir) followed by os.MkdirAll(wsDir), deleting the whole
workspace directory and recreating it empty. -/
def resetWorkspaceDir (nm : String) (es : List FsEntry) : List FsEntry :=
  (es.filter (fun e => entryName e != nm)) ++ [.dir nm []]

/-- Create or overwrite a plain file at the top level of a directory,
as os.WriteFile does. -/
def setFile (nm content : String) (dst : List FsEntry) : List FsEntry :=
  if dst.any (fun e => entryName e == nm) then
    dst.map (fun e => if entryName e == nm then .file nm content else e)
  else dst ++ [.file nm content]

/-- Write a batch of (name, content) files at the top level. -/
def writeFilesTop (arts : List (String × String)) (dst : List FsEntry) : List FsEntry :=
  arts.foldl (fun acc a => setFile a.1 a.2 acc) dst

/-- Write a batch of files inside the named subdirectory. -/
def writeIntoDir (nm : String) (arts : List (String × String)) (dst : List FsEntry) : List FsEntry :=
  dst.map (fun e =>
    match e with
    | .dir n es => if n = nm then .dir n (writeFilesTop arts es) else .dir n es
    | other => other)

/-- The per-environment synchronization of backupCmd (backup.go lines
304-348) viewed on the environment directory: remove every file under the
directory, write the environment-level artifacts, then for each workspace
in order delete and recreate its directory and write its artifacts. -/
def processEnvDir (envArts : List (String × String))
    (wss : List (String × List (String × String))) (es : List FsEntry) : List FsEntry :=
  wss.foldl
    (fun s w => writeIntoDir w.1 w.2 (resetWorkspaceDir w.1 s))
    (writeFilesTop envArts (removeFilesOnly es))

/-- Go strings.HasSuffix. -/
def strHasSuffix (s suf : String) : Bool :=
  decide (List.IsSuffix suf.data s.data)

/-- Create or overwrite a directory entry with the given entries. -/
def putDir (nm : String) (sub : List FsEntry) (dst : List FsEntry) : List FsEntry :=
  if dst.any (fun e => entryName e == nm) then
    dst.map (fun e => if entryName e == nm then .dir nm sub else e)
  else dst ++ [.dir nm sub]

/-- copyDir (restore.go lines 270-301): recursively copy every entry of a
source directory into a destination directory, merging with what is
already there; files are copied with copyFile (create or truncate). -/
def copyDirEntries : List FsEntry → List FsEntry → List FsEntry
  | [], dst => dst
  | .file n c :: rest, dst => copyDirEntries rest (setFile n c dst)
  | .dir n es :: rest, dst =>
    let sub :=
      match lookupDir n dst with
      | some des => copyDirEntries es des
      | none => copyDirEntries es []
    copyDirEntries rest (putDir n sub dst)

/-- The environment-level file copy of the filtered restore (restore.go
lines 126-136): copy every plain file (not subdirectory) directly under
the environment directory into the destination root. -/
def copyEnvFiles : List FsEntry → List FsEntry → List FsEntry
  | [], dst => dst
  | .file n c :: rest, dst => copyEnvFiles rest (setFile n c dst)
  | .dir _ _ :: rest, dst => copyEnvFiles rest dst

/-- config.PlainIDConfig.FindEnvironment: the first environment with the
given id, else the first wildcard environment when one exists. -/
def findEnvironment (envs : List CfgEnv) (envID : String) : Option CfgEnv :=
  match envs.find? (fun e => e.id == envID) with
  | some e => some e
  | none =>
    if hasWildcardEnvironment envs then envs.find? (fun e => e.id == "*") else none

/-- findWorkspaceByNameOrID (restore.go lines 210-233): look the
environment up in the configuration, take the first workspace whose id
matches, is the wildcard, or whose name matches together with the id
condition; fall back to a synthetic workspace when the environment has a
wildcard workspace. -/
def findWorkspaceByNameOrID (cfgEnvs : List CfgEnv) (envID wsID wsName : String) :
    Option CfgWorkspace :=
  match findEnvironment cfgEnvs envID with
  | none => none
  | some env =>
    match env.workspaces.find? (fun ws =>
        ws.id == wsID || ws.id == "*" ||
          (ws.name == wsName && (wsID == "" || ws.id == wsID))) with
    | some ws => some ws
    | none =>
      if hasWildcardWorkspace env then some (CfgWorkspace.mk wsID wsName) else none

/-- The inner workspace scan of the filtered restore (restore.go lines
96-116): the first subdirectory accepted by findWorkspaceByNameOrID. -/
def firstMatchingWs (cfgEnvs : List CfgEnv) (envID wsID : String) :
    List FsEntry → Option (String × List FsEntry)
  | [] => none
  | .dir wn wes :: rest =>
    if (findWorkspaceByNameOrID cfgEnvs envID wsID wn).isSome then some (wn, wes)
    else firstMatchingWs cfgEnvs envID wsID rest
  | .file _ _ :: rest => firstMatchingWs cfgEnvs envID wsID rest

/-- The outer environment scan of the filtered restore (restore.go lines
86-145): find a top-level directory whose name ends with underscore plus
the environment id and that contains a matching workspace directory; copy
that workspace directory into the destination, then copy the
environment-level plain files into the destination; fail when no pair
matches. -/
def scanEnvDirs (cfgEnvs : List CfgEnv) (envID wsID : String) (dest : List FsEntry) :
    List FsEntry → Except String (List FsEntry)
  | [] =>
    .error ("could not find configuration for environment " ++ envID ++
      " and workspace " ++ wsID)
  | .dir n des :: rest =>
    if strHasSuffix n ("_" ++ envID) then
      match firstMatchingWs cfgEnvs envID wsID des with
      | some (_, wes) => .ok (copyEnvFiles des (copyDirEntries wes dest))
      | none => scanEnvDirs cfgEnvs envID wsID dest rest
    else scanEnvDirs cfgEnvs envID wsID dest rest
  | .file _ _ :: rest => scanEnvDirs cfgEnvs envID wsID dest rest

/-- Top-level entry names of a directory. -/
def topNames (es : List FsEntry) : List String :=
  es.map entryName

/-- One application info row of the paginated application listing
(Service.Applications in plainid-service.go). -/
structure AppInfo where
  id : String
  name : String
  wsid : String
deriving DecidableEq, Repr

/-- The pagination loop of Service.Applications (plainid-service.go lines
212-263) run against a server holding the item list, with the reported
total of each response given by an arbitrary (possibly inconsistent)
function of the page offset. Each page is the next slice of at most 50
items; rows are kept when their workspace id matches; the loop stops when
the page is smaller than the limit or offset plus the page size reaches
the reported total, else advances the offset by the limit. -/
def applicationsLoop (items : List AppInfo) (totals : Nat → Nat) (wsID : String)
    (offset : Nat) (acc : List AppInfo) : List AppInfo :=
  if ((items.drop offset).take 50).length < 50 ∨
      offset + ((items.drop offset).take 50).length ≥ totals offset then
    acc ++ ((items.drop offset).take 50).filter (fun a => a.wsid == wsID)
  else
    applicationsLoop items totals wsID (offset + 50)
      (acc ++ ((items.drop offset).take 50).filter (fun a => a.wsid == wsID))
termination_by items.length - offset
decreasing_by
  simp only [not_or, Nat.not_lt, Nat.not_le, List.length_take, List.length_drop] at *
  omega

/-- Step-indexed version of the same loop, one fuel unit per request
round trip; none means the fuel ran out before the loop stopped. -/
def applicationsLoopFuel (fuel : Nat) (items : List AppInfo) (totals : Nat → Nat)
    (wsID : String) (offset : Nat) (acc : List AppInfo) : Option (List AppInfo) :=
  match fuel with
  | 0 => none
  | f + 1 =>
    let page := (items.drop offset).take 50
    let acc2 := acc ++ page.filter (fun a => a.wsid == wsID)
    if page.length < 50 ∨ offset + page.length ≥ totals offset then some acc2
    else applicationsLoopFuel f items totals wsID (offset + 50) acc2

/-- One row of the single policy-listing response
(Service.AppPolicies in plainid-service.go). -/
structure PolicyInfo where
  id : String
  name : String
  state : String
deriving DecidableEq, Repr

/-- The one response the policy listing receives, with its reported
total. -/
structure PolicyServer where
  listData : List PolicyInfo
  listTotal : Nat
deriving DecidableEq, Repr

/-- The policy-listing URL built by Service.AppPolicies (plainid-service.go
lines 311-312): a single request with only the application filter, no
offset and no limit parameter. -/
def appPoliciesListURL (base envID appID : String) : String :=
  base ++ "/policy-mgmt/1.0/policies/" ++ envID ++ "?filter%5BappId%5D=" ++ appID

/-- The per-policy body URL built by Service.AppPolicies (plainid-service.go
lines 343-344). -/
def appPolicyBodyURL (base envID wsID polID : String) : String :=
  base ++ "/api/2.0/policies/" ++ envID ++ "?filter%5BauthWsId%5D=" ++ wsID ++
    "&filter%5Bid%5D=" ++ polID ++ "&extendedSchema=true"

/-- All request URLs Service.AppPolicies issues, in order: exactly one
listing request, then one body request per non-inactive policy of the
single response. -/
def appPoliciesRequestURLs (base envID wsID appID : String) (srv : PolicyServer) :
    List String :=
  appPoliciesListURL base envID appID ::
    (srv.listData.filter (fun p => p.state != "Inactive")).map
      (fun p => appPolicyBodyURL base envID wsID p.id)

/-- One externally visible step of a run, in the order performed. -/
inductive Act where
  | createTempDir
  | cloneRemote
  | checkoutTag (tag : String)
  | fetch (what : String)
  | write (path : String)
  | mkdir (path : String)
  | removeAll (path : String)
  | clearFiles (path : String)
  | stageAll
  | commit (msg : String)
  | setBranchRef
  | createTag (nm : String)
  | push
  | upload
deriving DecidableEq, Repr

/-- Actions performed so far, oldest first. -/
abbrev Trace := List Act

/-- Result of a partial run: the actions it performed and its outcome. -/
abbrev TR (α : Type) := Trace × Except String α

/-- Sequencing with fail-fast error propagation: when the first part
fails, its actions stand and the continuation never runs. -/
def tstep {α β : Type} (r : TR α) (k : α → TR β) : TR β :=
  match r with
  | (tr, .error e) => (tr, .error e)
  | (tr, .ok a) =>
    let s := k a
    (tr ++ s.1, s.2)

/-- One externally visible call with the given outcome. -/
def tact {α : Type} (a : Act) (res : Except String α) : TR α :=
  ([a], res)

/-- A run part that does nothing. -/
def tpure {α : Type} (a : α) : TR α :=
  ([], Except.ok a)

/-- Process the list elements in order, stopping at the first failure. -/
def tforEach {α : Type} (f : α → TR Unit) : List α → TR Unit
  | [] => tpure ()
  | x :: xs => tstep (f x) (fun _ => tforEach f xs)

/-- An application as fetched and serialized by the backup
(plainid.Application with its AsJSON rendering). -/
structure Application where
  id : String
  name : String
  json : String
deriving DecidableEq, Repr

/-- A PAA group as fetched and serialized by the backup. -/
structure PAAGroupM where
  id : String
  json : String
deriving DecidableEq, Repr

/-- The outcomes of every external call a backup run can make: the PlainID
service fetches, the filesystem operations and the git operations. -/
structure Oracle where
  applications : String → String → Except String (List Application)
  assetTemplateIDs : String → Except String (List String)
  assetTemplate : String → String → Except String String
  identityTemplates : String → String → Except String String
  paaGroups : String → Except String (List PAAGroupM)
  appPolicies : String → String → String → Except String (List String)
  appAPIMapper : String → String → Except String String
  writeFile : String → String → Except String Unit
  mkdirAll : String → Except String Unit
  removeAllDir : String → Except String Unit
  clearFilesOnly : String → Except String Unit
  createTmp : Except String String
  cloneRem : Except String Unit
  addAll : Except String Unit
  doCommit : String → Except String String
  setRef : Except String Unit
  doCreateTag : String → String → Except String Unit
  doPush : Except String Unit

/-- fetchPlainIDEnvStuff (backup.go lines 510-551): look the environment
up, fetch and write one identity-template file per configured identity,
then fetch the PAA groups and write one file per group. -/
def fetchPlainIDEnvStuff (o : Oracle) (cfgEnvs : List CfgEnv) (envDir envID : String) :
    TR Unit :=
  match findEnvironment cfgEnvs envID with
  | none => ([], .error ("environment " ++ envID ++ " not found in configuration"))
  | some env =>
    tstep
      (tforEach (fun identity =>
        tstep (tact (.fetch ("identity-templates:" ++ envID ++ ":" ++ identity))
            (o.identityTemplates envID identity)) (fun body =>
          tact (.write (envDir ++ "/identity-template-" ++ identity ++ ".json"))
            (o.writeFile (envDir ++ "/identity-template-" ++ identity ++ ".json") body)))
        env.identities)
      (fun _ =>
        tstep (tact (.fetch ("paa-groups:" ++ envID)) (o.paaGroups envID)) (fun groups =>
          tforEach (fun g =>
            tact (.write (envDir ++ "/paa-group_" ++ g.id ++ ".json"))
              (o.writeFile (envDir ++ "/paa-group_" ++ g.id ++ ".json") g.json)) groups))

/-- fetchPlainIDWSStuff (backup.go lines 440-508): fetch the applications
and the asset-template ids, write one asset-template file per index, check
the environment exists in the configuration, then per application create
its directory and write its descriptor, its policies and its api-mapper
set. -/
def fetchPlainIDWSStuff (o : Oracle) (cfgEnvs : List CfgEnv) (wsDir envID wsID : String) :
    TR Unit :=
  tstep (tact (.fetch ("applications:" ++ envID ++ ":" ++ wsID))
      (o.applications envID wsID)) (fun apps =>
  tstep (tact (.fetch ("asset-template-ids:" ++ wsID)) (o.assetTemplateIDs wsID)) (fun atIds =>
  tstep
    (tforEach (fun p =>
      tstep (tact (.fetch ("asset-template:" ++ p.2)) (o.assetTemplate envID p.2)) (fun body =>
        tact (.write (wsDir ++ "/asset-template_" ++ toString p.1 ++ ".json"))
          (o.writeFile (wsDir ++ "/asset-template_" ++ toString p.1 ++ ".json") body)))
      atIds.enum)
    (fun _ =>
      match findEnvironment cfgEnvs envID with
      | none => ([], .error ("environment " ++ envID ++ " not found in configuration"))
      | some _ =>
        tforEach (fun app =>
          tstep (tact (.mkdir (wsDir ++ "/" ++ app.name))
              (o.mkdirAll (wsDir ++ "/" ++ app.name))) (fun _ =>
          tstep (tact (.write (wsDir ++ "/" ++ app.name ++ "/application.json"))
              (o.writeFile (wsDir ++ "/" ++ app.name ++ "/application.json") app.json)) (fun _ =>
          tstep (tact (.fetch ("app-policies:" ++ app.id))
              (o.appPolicies envID wsID app.id)) (fun pols =>
          tstep
            (tforEach (fun q =>
              tact (.write (wsDir ++ "/" ++ app.name ++ "/policy_" ++ toString q.1 ++ ".srego"))
                (o.writeFile
                  (wsDir ++ "/" ++ app.name ++ "/policy_" ++ toString q.1 ++ ".srego") q.2))
              pols.enum)
            (fun _ =>
              tstep (tact (.fetch ("api-mapper:" ++ app.id))
                  (o.appAPIMapper envID app.id)) (fun m =>
                tact (.write (wsDir ++ "/" ++ app.name ++ "/api-mapper-set.json"))
                  (o.writeFile (wsDir ++ "/" ++ app.name ++ "/api-mapper-set.json") m)))))))
          apps)))

/-- The environment and workspace synchronization phase of backupCmd
(backup.go lines 304-348): per environment create its directory, remove
every plain file under it, fetch the environment artifacts; per workspace
of the environment delete and recreate the workspace directory, then fetch
the workspace artifacts. Any failure stops the whole phase. -/
def processEnvs (o : Oracle) (cfgEnvs : List CfgEnv) (tempDir : String) : TR Unit :=
  tforEach (fun env =>
    tstep (tact (.mkdir (tempDir ++ "/" ++ env.name ++ "_" ++ env.id))
        (o.mkdirAll (tempDir ++ "/" ++ env.name ++ "_" ++ env.id))) (fun _ =>
    tstep (tact (.clearFiles (tempDir ++ "/" ++ env.name ++ "_" ++ env.id))
        (o.clearFilesOnly (tempDir ++ "/" ++ env.name ++ "_" ++ env.id))) (fun _ =>
    tstep (fetchPlainIDEnvStuff o cfgEnvs
        (tempDir ++ "/" ++ env.name ++ "_" ++ env.id) env.id) (fun _ =>
    tforEach (fun ws =>
      tstep (tact (.removeAll (tempDir ++ "/" ++ env.name ++ "_" ++ env.id ++ "/" ++ ws.name))
          (o.removeAllDir (tempDir ++ "/" ++ env.name ++ "_" ++ env.id ++ "/" ++ ws.name)))
        (fun _ =>
      tstep (tact (.mkdir (tempDir ++ "/" ++ env.name ++ "_" ++ env.id ++ "/" ++ ws.name))
          (o.mkdirAll (tempDir ++ "/" ++ env.name ++ "_" ++ env.id ++ "/" ++ ws.name)))
        (fun _ =>
      fetchPlainIDWSStuff o cfgEnvs
        (tempDir ++ "/" ++ env.name ++ "_" ++ env.id ++ "/" ++ ws.name) env.id ws.id)))
      env.workspaces))))
    cfgEnvs

/-- backupCmd (backup.go lines 270-437): temp directory, clone, the
synchronization phase, then stage everything, commit, set the branch
reference for a new repository, create the timestamp tag, and push unless
the run is a dry run. -/
def backupRun (o : Oracle) (cfgEnvs : List CfgEnv) (now : DateTime)
    (isNewRepo dryRun : Bool) : TR Unit :=
  tstep (tact .createTempDir o.createTmp) (fun tempDir =>
  tstep (tact .cloneRemote o.cloneRem) (fun _ =>
  tstep (processEnvs o cfgEnvs tempDir) (fun _ =>
  tstep (tact .stageAll o.addAll) (fun _ =>
  tstep (tact (.commit (commitMessage cfgEnvs)) (o.doCommit (commitMessage cfgEnvs)))
    (fun commitHash =>
  tstep (if isNewRepo then tact .setBranchRef o.setRef else tpure ()) (fun _ =>
  tstep (tact (.createTag (formatTimestamp now))
      (o.doCreateTag (formatTimestamp now) commitHash)) (fun _ =>
  if dryRun then tpure () else tact .push o.doPush)))))))

/-- Whether an action belongs to the staging, commit, tag or push phase. -/
def isCommitPhase : Act → Bool
  | .stageAll => true
  | .commit _ => true
  | .createTag _ => true
  | .push => true
  | _ => false

/-- restoreCmd in non-interactive mode (restore.go lines 52-170): create
the target directory and a fresh (empty) temporary directory; no clone and
no tag checkout is performed. With both filters set, scan the temporary
directory for the environment and workspace pair and copy it flattened
into the destination; otherwise copy the whole temporary directory tree
into the destination. No upload to the live system is performed in either
mode. The returned tree is the destination content after the run. -/
def restoreRun (cfgEnvs : List CfgEnv) (tag targetDir envF wsF : String)
    (dest : List FsEntry) (dryRun : Bool) : Trace × Except String (List FsEntry) :=
  let scratch : List FsEntry := []
  ([Act.mkdir targetDir, Act.createTempDir],
    if envF != "" && wsF != "" then scanEnvDirs cfgEnvs envF wsF dest scratch
    else .ok (copyDirEntries scratch dest))

/-- Concrete workspace used to evaluate the models on a sample scope. -/
def sampleWorkspace : CfgWorkspace :=
  CfgWorkspace.mk "w1" "Main"

/-- Concrete environment used to evaluate the models on a sample scope. -/
def sampleEnv : CfgEnv :=
  CfgEnv.mk "e1" "prod" [sampleWorkspace] ["User"]

/-- Concrete wall-clock reading used to evaluate the timestamp model. -/
def sampleNow : DateTime :=
  DateTime.mk 2023 1 15 12 0 0

/-- An oracle on which every external call succeeds. -/
def oracleOk : Oracle where
  applications := fun _ _ => .ok [Application.mk "app1" "AppOne" "APPJSON"]
  assetTemplateIDs := fun _ => .ok ["at1"]
  assetTemplate := fun _ _ => .ok "ATBODY"
  identityTemplates := fun _ _ => .ok "ITBODY"
  paaGroups := fun _ => .ok [PAAGroupM.mk "pg1" "PGJSON"]
  appPolicies := fun _ _ _ => .ok ["POLICY"]
  appAPIMapper := fun _ _ => .ok "MAPPER"
  writeFile := fun _ _ => .ok ()
  mkdirAll := fun _ => .ok ()
  removeAllDir := fun _ => .ok ()
  clearFilesOnly := fun _ => .ok ()
  createTmp := .ok "tmp"
  cloneRem := .ok ()
  addAll := .ok ()
  doCommit := fun _ => .ok "hash"
  setRef := .ok ()
  doCreateTag := fun _ _ => .ok ()
  doPush := .ok ()

/-- The same oracle with the application listing failing, the failing
fetch of the abort scenario. -/
def oracleFetchFail : Oracle :=
  { oracleOk with applications := fun _ _ => .error "fetch failed" }

/-- Sample tag whose message holds the token env:ab, so that the
substring env:a occurs without an env:a token. -/
def trickyTag : GitTag :=
  GitTag.mk "20230115-120000" "Backup PlainID configuration for: env:ab ws:w1"

/-- Sample tag whose message holds the exact tokens env:a and ws:w1. -/
def exactTag : GitTag :=
  GitTag.mk "20230116-120000" "Backup PlainID configuration for: env:a ws:w1"

/-- Policy-listing response carrying a full page of fifty rows while
reporting a total of two hundred. -/
def srvInconsistent : PolicyServer :=
  PolicyServer.mk ((List.range 50).map (fun i => PolicyInfo.mk ("p" ++ toString i) "n" "Active")) 200

/-- Scratch tree holding one environment directory with one
identity-template file and one workspace directory, as backup writes it. -/
def sampleScratch : List FsEntry :=
  [FsEntry.dir "prod_e1"
    [FsEntry.file "identity-template-User.json" "IT",
     FsEntry.dir "Main" [FsEntry.file "application.json" "APP"]]]

theorem strDataAppend (a b : String) : (a ++ b).data = a.data ++ b.data := by
  cases a
  cases b
  rfl

theorem strExt {a b : String} (h : a.data = b.data) : a = b := by
  cases a
  cases b
  exact congrArg String.mk h

theorem strAppendAssoc (a b c : String) : a ++ b ++ c = a ++ (b ++ c) :=
  strExt (by simp [strDataAppend])

theorem strJoinCons (a : String) (l : List String) :
    String.join (a :: l) = a ++ String.join l :=
  strExt (by simp [String.data_join, strDataAppend])

theorem strJoinAppend (l1 l2 : List String) :
    String.join (l1 ++ l2) = String.join l1 ++ String.join l2 :=
  strExt (by simp [String.data_join, strDataAppend])

theorem foldl_append_eq {α : Type} (f : α → String) (l : List α) (acc : String) :
    l.foldl (fun a x => a ++ f x) acc = acc ++ String.join (l.map f) := by
  induction l generalizing acc with
  | nil => simp [String.join]
  | cons x xs ih =>
    rw [List.foldl_cons, ih, List.map_cons, strJoinCons, strAppendAssoc]

theorem commitMessage_general (envs : List CfgEnv) (acc : String) :
    envs.foldl
      (fun a env =>
        env.workspaces.foldl
          (fun a2 ws => a2 ++ (" env:" ++ env.id ++ " ws:" ++ ws.id)) a) acc
      = acc ++ String.join (workspacePairTokens envs) := by
  induction envs generalizing acc with
  | nil => simp [workspacePairTokens, String.join]
  | cons e es ih =>
    rw [List.foldl_cons,
      foldl_append_eq (fun ws : CfgWorkspace => " env:" ++ e.id ++ " ws:" ++ ws.id)
        e.workspaces acc,
      ih]
    simp only [workspacePairTokens, List.flatMap_cons]
    rw [strJoinAppend, strAppendAssoc]

/-- C7: for every successful backup run, the commit message is the fixed
text "Backup PlainID configuration for:" followed by one " env:(id) ws:(id)"
pair per workspace processed, in processing order, the environment token
repeated once per workspace of that environment. -/
theorem c7_commit_message (envs : List CfgEnv) :
    commitMessage envs =
      "Backup PlainID configuration for:" ++ String.join (workspacePairTokens envs) :=
  commitMessage_general envs "Backup PlainID configuration for:"

theorem removeFilesOnly_noFiles (es : List FsEntry) :
    containsFile (removeFilesOnly es) = false := by
  induction es using removeFilesOnly.induct with
  | case1 => simp [removeFilesOnly, containsFile]
  | case2 _ _ rest ih => simpa [removeFilesOnly] using ih
  | case3 n sub rest ih1 ih2 => simp [removeFilesOnly, containsFile, ih1, ih2]

theorem removeFilesOnly_skeleton (es : List FsEntry) :
    removeFilesOnly es = dirSkeleton es := by
  induction es using removeFilesOnly.induct with
  | case1 => simp [removeFilesOnly, dirSkeleton]
  | case2 _ _ rest ih => simpa [removeFilesOnly, dirSkeleton] using ih
  | case3 n sub rest ih1 ih2 => simp [removeFilesOnly, dirSkeleton, ih1, ih2]

theorem lookupDir_of_not_mem (nm : String) (l : List FsEntry)
    (h : ∀ e ∈ l, entryName e ≠ nm) :
    lookupDir nm (l ++ [FsEntry.dir nm []]) = some [] := by
  induction l with
  | nil => simp [lookupDir]
  | cons e rest ih =>
    have hne : entryName e ≠ nm := h e (List.mem_cons_self e rest)
    cases e with
    | file n c =>
      simp only [entryName] at hne
      simp only [List.cons_append, lookupDir, if_neg hne]
      exact ih (fun x hx => h x (List.mem_cons_of_mem _ hx))
    | dir n sub =>
      simp only [entryName] at hne
      simp only [List.cons_append, lookupDir, if_neg hne]
      exact ih (fun x hx => h x (List.mem_cons_of_mem _ hx))

theorem resetWorkspaceDir_empty (nm : String) (es : List FsEntry) :
    lookupDir nm (resetWorkspaceDir nm es) = some [] := by
  unfold resetWorkspaceDir
  apply lookupDir_of_not_mem
  intro e he
  have hp := (List.mem_filter.mp he).2
  simpa using hp

/-- C2: before an environment's new artifacts are written every plain file
(and no subdirectory) under the environment directory is removed, and
before a workspace's applications are written the whole workspace
directory is deleted and recreated empty, the writes happening only on the
cleared state. -/
theorem c2_clear_then_repopulate (es : List FsEntry) (nm : String)
    (envArts : List (String × String)) (wss : List (String × List (String × String))) :
    containsFile (removeFilesOnly es) = false ∧
    removeFilesOnly es = dirSkeleton es ∧
    lookupDir nm (resetWorkspaceDir nm es) = some [] ∧
    processEnvDir envArts wss es =
      wss.foldl (fun s w => writeIntoDir w.1 w.2 (resetWorkspaceDir w.1 s))
        (writeFilesTop envArts (removeFilesOnly es)) :=
  ⟨removeFilesOnly_noFiles es, removeFilesOnly_skeleton es,
    resetWorkspaceDir_empty nm es, rfl⟩

/-- C1: the non-interactive unfiltered restore never performs a clone or a
tag checkout; it copies a freshly created empty temporary directory, so
the run reports success while the destination receives no snapshot
content at all (the destination tree is returned unchanged). -/
theorem c1_restore_copies_nothing (cfgEnvs : List CfgEnv) (tag targetDir : String)
    (dest : List FsEntry) (dry : Bool) :
    restoreRun cfgEnvs tag targetDir "" "" dest dry =
      ([Act.mkdir targetDir, Act.createTempDir], Except.ok dest) ∧
    Act.cloneRemote ∉ (restoreRun cfgEnvs tag targetDir "" "" dest dry).1 ∧
    (∀ tg, Act.checkoutTag tg ∉ (restoreRun cfgEnvs tag targetDir "" "" dest dry).1) := by
  refine ⟨?_, ?_, ?_⟩
  · simp [restoreRun, copyDirEntries]
  · simp [restoreRun]
  · intro tg
    simp [restoreRun]

/-- C3 counterexample: with the filter pair (a, w1), the listing keeps a
snapshot whose message holds the token env:ab but no env:a token, because
the filter is substring containment, so the claim that only snapshots
with both exact tokens are returned is false. -/
theorem c3_counterexample :
    (listSnapshots [trickyTag] "a" "w1").length = 1 ∧
    (listSnapshots [trickyTag] "a" "w1").all
      (fun r => hasToken r.message "env:a") = false := by
  constructor
  · decide
  · decide

theorem bne_true_of_ne {a b : String} (h : a ≠ b) : (a != b) = true :=
  bne_iff_ne.mpr h

theorem mem_insertByTime (x : TagInfo) (l : List TagInfo) (a : TagInfo) :
    a ∈ insertByTime x l ↔ a = x ∨ a ∈ l := by
  induction l with
  | nil => simp [insertByTime]
  | cons y ys ih =>
    unfold insertByTime
    by_cases h : dtKey y.time ≤ dtKey x.time
    · rw [if_pos h]
      simp
    · rw [if_neg h]
      simp only [List.mem_cons, ih]
      tauto

theorem mem_sortByTimeDesc (l : List TagInfo) (a : TagInfo) :
    a ∈ sortByTimeDesc l ↔ a ∈ l := by
  induction l with
  | nil => simp [sortByTimeDesc]
  | cons x xs ih =>
    unfold sortByTimeDesc
    rw [mem_insertByTime, ih]
    simp

/-- C3 amended: for every supplied filter pair (envId=E, wsId=W), the
snapshot listing contains only snapshots whose tag message contains both
env:E and ws:W as substrings (strings.Contains), and excludes all
snapshots whose message lacks either substring. -/
theorem c3_filter_substrings (tags : List GitTag) (E W : String)
    (hE : E ≠ "") (hW : W ≠ "") :
    ∀ r ∈ listSnapshots tags E W,
      strContains r.message ("env:" ++ E) = true ∧
      strContains r.message ("ws:" ++ W) = true := by
  intro r hr
  have hr2 : r ∈ sortByTimeDesc (snapshotRows tags E W) :=
    List.take_subset 10 _ hr
  have hr3 : r ∈ snapshotRows tags E W :=
    (mem_sortByTimeDesc (snapshotRows tags E W) r).mp hr2
  obtain ⟨t, _, hf⟩ := List.mem_filterMap.mp hr3
  rcases hp : parseTimestamp t.name with _ | tm
  · simp only [hp] at hf
    exact Option.noConfusion hf
  · simp only [hp] at hf
    by_cases hpf : passesFilter E W t.message = true
    · rw [if_pos hpf] at hf
      have hmsg : r.message = t.message := by
        cases hf
        rfl
      unfold passesFilter at hpf
      rw [if_pos (by rw [bne_true_of_ne hE, bne_true_of_ne hW]; rfl)] at hpf
      rw [hmsg]
      exact ⟨(Bool.and_eq_true _ _ |>.mp hpf).1, (Bool.and_eq_true _ _ |>.mp hpf).2⟩
    · rw [if_neg hpf] at hf
      simp at hf

/-- C3 witness at a concrete corpus. -/
theorem c3_filter_substrings_witness :
    strContains exactTag.message ("env:" ++ "a") = true ∧
    strContains exactTag.message ("ws:" ++ "w1") = true := by
  have h := c3_filter_substrings [exactTag] "a" "w1" (by decide) (by decide)
  exact h (TagInfo.mk exactTag.name (DateTime.mk 2023 1 16 12 0 0) exactTag.message)
    (by decide)

/-- C5: for any selector whose environment list contains the wildcard, the
resolved scope is exactly the live environment list, each environment
carrying all of its live workspaces and all of its live identity-template
ids; and when the inventory itself holds no wildcard ids, no wildcard
token remains in the resolved scope. -/
theorem c5_wildcard_completeness (inv : Inventory) (cfgEnvs : List CfgEnv)
    (hw : hasWildcardEnvironment cfgEnvs = true) :
    resolveScope inv cfgEnvs = inv.envs.map (fun ae =>
      CfgEnv.mk ae.id ae.name
        ((inv.workspaces ae.id).map (fun aw => CfgWorkspace.mk aw.id aw.name))
        ((inv.identities ae.id).map (fun ti => ti.templateId))) ∧
    ((∀ ae ∈ inv.envs, ae.id ≠ "*" ∧
        (∀ aw ∈ inv.workspaces ae.id, aw.id ≠ "*") ∧
        (∀ ti ∈ inv.identities ae.id, ti.templateId ≠ "*")) →
      noWildcardScope (resolveScope inv cfgEnvs) = true) := by
  have hmain : resolveScope inv cfgEnvs = inv.envs.map (fun ae =>
      CfgEnv.mk ae.id ae.name
        ((inv.workspaces ae.id).map (fun aw => CfgWorkspace.mk aw.id aw.name))
        ((inv.identities ae.id).map (fun ti => ti.templateId))) := by
    unfold resolveScope resolveEnvs
    rw [if_pos hw]
    unfold resolveWorkspaces resolveIdentities
    rw [List.map_map, List.map_map]
    apply List.map_congr_left
    intro ae _
    simp [Function.comp, hasWildcardWorkspace, hasWildcardIdentities]
  refine ⟨hmain, fun hclean => ?_⟩
  rw [hmain]
  unfold noWildcardScope
  rw [List.all_eq_true]
  intro e he
  obtain ⟨ae, hae, haee⟩ := List.mem_map.mp he
  obtain ⟨h1, h2, h3⟩ := hclean ae hae
  subst haee
  simp only [Bool.and_eq_true, List.all_eq_true]
  refine ⟨⟨by simpa using h1, ?_⟩, ?_⟩
  · intro w hwmem
    obtain ⟨aw, hawm, hawe⟩ := List.mem_map.mp hwmem
    subst hawe
    simpa using h2 aw hawm
  · intro i him
    obtain ⟨ti, htim, htie⟩ := List.mem_map.mp him
    subst htie
    simpa using h3 ti htim

/-- Concrete inventory used to evaluate the scope resolver. -/
def sampleInventory : Inventory :=
  Inventory.mk [ApiEnv.mk "e1" "prod"] (fun _ => [ApiWorkspace.mk "w1" "Main"])
    (fun _ => [ApiIdentity.mk "tpl1"])

/-- C5 witness: the wildcard selector against the sample inventory. -/
theorem c5_wildcard_completeness_witness :
    resolveScope sampleInventory [CfgEnv.mk "*" "" [] []] =
      [CfgEnv.mk "e1" "prod" [CfgWorkspace.mk "w1" "Main"] ["tpl1"]] ∧
    noWildcardScope (resolveScope sampleInventory [CfgEnv.mk "*" "" [] []]) = true := by
  have h := c5_wildcard_completeness sampleInventory [CfgEnv.mk "*" "" [] []] (by decide)
  refine ⟨?_, h.2 (by decide)⟩
  rw [h.1]
  decide

theorem firstMatchingWs_spec (cfgEnvs : List CfgEnv) (envID wsID : String)
    (des : List FsEntry) (wn : String) (wes : List FsEntry)
    (h : firstMatchingWs cfgEnvs envID wsID des = some (wn, wes)) :
    FsEntry.dir wn wes ∈ des ∧
    (findWorkspaceByNameOrID cfgEnvs envID wsID wn).isSome = true := by
  induction des with
  | nil => exact Option.noConfusion h
  | cons e rest ih =>
    cases e with
    | file n c =>
      rw [firstMatchingWs] at h
      have := ih h
      exact ⟨List.mem_cons_of_mem _ this.1, this.2⟩
    | dir n sub =>
      rw [firstMatchingWs] at h
      by_cases hm : (findWorkspaceByNameOrID cfgEnvs envID wsID n).isSome = true
      · rw [if_pos hm] at h
        have h2 := h
        injection h2 with h3
        have hwn : n = wn := congrArg Prod.fst h3
        have hwes : sub = wes := congrArg Prod.snd h3
        subst hwn
        subst hwes
        exact ⟨List.mem_cons_self _ _, hm⟩
      · rw [if_neg hm] at h
        have := ih h
        exact ⟨List.mem_cons_of_mem _ this.1, this.2⟩

/-- C10: whenever the filtered restore finds a matching environment and
workspace pair, the destination it produces is exactly the matched
workspace directory contents copied into the destination root followed by
the environment-level plain files copied into the destination root, so the
output is flattened rather than nested under the environment and workspace
directories. -/
theorem c10_filtered_restore_flattens (cfgEnvs : List CfgEnv) (envID wsID : String)
    (scratch dest dres : List FsEntry)
    (h : scanEnvDirs cfgEnvs envID wsID dest scratch = .ok dres) :
    ∃ n des wn wes,
      FsEntry.dir n des ∈ scratch ∧
      strHasSuffix n ("_" ++ envID) = true ∧
      FsEntry.dir wn wes ∈ des ∧
      (findWorkspaceByNameOrID cfgEnvs envID wsID wn).isSome = true ∧
      dres = copyEnvFiles des (copyDirEntries wes dest) := by
  induction scratch with
  | nil => exact Except.noConfusion h
  | cons e rest ih =>
    cases e with
    | file n c =>
      rw [scanEnvDirs] at h
      obtain ⟨n2, des, wn, wes, hmem, hsuf, hwmem, hws, heq⟩ := ih h
      exact ⟨n2, des, wn, wes, List.mem_cons_of_mem _ hmem, hsuf, hwmem, hws, heq⟩
    | dir n sub =>
      rw [scanEnvDirs] at h
      by_cases hs : strHasSuffix n ("_" ++ envID) = true
      · rw [if_pos hs] at h
        rcases hm : firstMatchingWs cfgEnvs envID wsID sub with _ | p
        · rw [hm] at h
          obtain ⟨n2, des, wn, wes, hmem, hsuf, hwmem, hws, heq⟩ := ih h
          exact ⟨n2, des, wn, wes, List.mem_cons_of_mem _ hmem, hsuf, hwmem, hws, heq⟩
        · rw [hm] at h
          obtain ⟨wn, wes⟩ := p
          have hspec := firstMatchingWs_spec cfgEnvs envID wsID sub wn wes hm
          have heq : copyEnvFiles sub (copyDirEntries wes dest) = dres := by
            injection h
          exact ⟨n, sub, wn, wes, List.mem_cons_self _ _, hs, hspec.1, hspec.2, heq.symm⟩
      · rw [if_neg hs] at h
        obtain ⟨n2, des, wn, wes, hmem, hsuf, hwmem, hws, heq⟩ := ih h
        exact ⟨n2, des, wn, wes, List.mem_cons_of_mem _ hmem, hsuf, hwmem, hws, heq⟩

/-- C10 witness: the sample scratch tree restored with the filter pair
(e1, w1) against the sample configuration. -/
theorem c10_filtered_restore_flattens_witness :
    ∃ n des wn wes,
      FsEntry.dir n des ∈ sampleScratch ∧
      strHasSuffix n ("_" ++ "e1") = true ∧
      FsEntry.dir wn wes ∈ des ∧
      (findWorkspaceByNameOrID [sampleEnv] "e1" "w1" wn).isSome = true ∧
      copyEnvFiles
          [FsEntry.file "identity-template-User.json" "IT",
            FsEntry.dir "Main" [FsEntry.file "application.json" "APP"]]
          (copyDirEntries [FsEntry.file "application.json" "APP"] []) =
        copyEnvFiles des (copyDirEntries wes []) :=
  c10_filtered_restore_flattens [sampleEnv] "e1" "w1" sampleScratch []
    (copyEnvFiles
      [FsEntry.file "identity-template-User.json" "IT",
        FsEntry.dir "Main" [FsEntry.file "application.json" "APP"]]
      (copyDirEntries [FsEntry.file "application.json" "APP"] [])) (by rfl)

theorem applicationsLoopFuel_terminates (items : List AppInfo) (totals : Nat → Nat)
    (wsID : String) : ∀ (k offset : Nat) (acc : List AppInfo),
    items.length - offset ≤ k →
    applicationsLoopFuel (k + 1) items totals wsID offset acc =
      some (applicationsLoop items totals wsID offset acc) := by
  intro k
  induction k with
  | zero =>
    intro offset acc hk
    have hlen : ((items.drop offset).take 50).length = 0 := by
      simp only [List.length_take, List.length_drop]
      omega
    rw [applicationsLoop]
    unfold applicationsLoopFuel
    rw [if_pos (by omega), if_pos (by omega)]
  | succ k ih =>
    intro offset acc hk
    by_cases hc : ((items.drop offset).take 50).length < 50 ∨
        offset + ((items.drop offset).take 50).length ≥ totals offset
    · rw [applicationsLoop]
      unfold applicationsLoopFuel
      rw [if_pos hc, if_pos hc]
    · have hlen : ((items.drop offset).take 50).length = 50 := by
        have : ((items.drop offset).take 50).length = min 50 (items.length - offset) := by
          simp [List.length_take, List.length_drop]
        omega
      have hnext : items.length - (offset + 50) ≤ k := by
        have : ((items.drop offset).take 50).length ≤ items.length - offset := by
          simp only [List.length_take, List.length_drop]
          omega
        omega
      rw [applicationsLoop]
      unfold applicationsLoopFuel
      rw [if_neg hc, if_neg hc]
      exact ih (offset + 50) _ hnext

/-- C6 amended: the application listing is fetched in offset/limit pages
and its loop always halts, whatever (possibly inconsistent) totals the
server reports, stopping exactly when the page is smaller than the limit
or when offset plus the page size reaches the reported total; the policy
listing is not paginated: it issues exactly one listing request carrying
no offset or limit parameter, then one body request per non-inactive
policy. -/
theorem c6_pagination (items : List AppInfo) (totals : Nat → Nat) (wsID : String)
    (offset : Nat) (acc : List AppInfo) (base envID appID wsID2 : String)
    (srv : PolicyServer) :
    (∃ fuel, applicationsLoopFuel fuel items totals wsID offset acc =
      some (applicationsLoop items totals wsID offset acc)) ∧
    (appPoliciesRequestURLs base envID wsID2 appID srv).length =
      1 + ((srv.listData.filter (fun p => p.state != "Inactive")).length) ∧
    (appPoliciesRequestURLs base envID wsID2 appID srv).head? =
      some (appPoliciesListURL base envID appID) := by
  refine ⟨⟨items.length - offset + 1,
    applicationsLoopFuel_terminates items totals wsID (items.length - offset) offset acc
      (Nat.le_refl _)⟩, ?_, ?_⟩
  · simp [appPoliciesRequestURLs, Nat.add_comm]
  · rfl

set_option maxRecDepth 100000 in
/-- C6 counterexample: the policy listing receives a full page of fifty
rows with a reported total of two hundred and still issues exactly one
listing request, whose URL carries no offset and no limit parameter, so
the claim that the policy listing fetches in offset/limit pages with a
pagination loop is false. -/
theorem c6_counterexample :
    (appPoliciesRequestURLs "" "e1" "w1" "app1" srvInconsistent).countP
      (fun u => strContains u "/policy-mgmt/1.0/policies/") = 1 ∧
    strContains (appPoliciesListURL "" "e1" "app1") "offset=" = false ∧
    strContains (appPoliciesListURL "" "e1" "app1") "limit=" = false ∧
    srvInconsistent.listData.length = 50 ∧
    srvInconsistent.listTotal = 200 := by
  refine ⟨?_, by decide, by decide, by decide, by decide⟩
  decide

/-- Every action of a partial run satisfies the predicate. -/
def AllActs {α : Type} (p : Act → Bool) (r : TR α) : Prop :=
  ∀ a ∈ r.1, p a = true

theorem allActs_tstep {α β : Type} (p : Act → Bool) (r : TR α) (k : α → TR β)
    (h1 : AllActs p r) (h2 : ∀ x, AllActs p (k x)) : AllActs p (tstep r k) := by
  obtain ⟨tr, res⟩ := r
  cases res with
  | error e => exact h1
  | ok a =>
    intro x hx
    unfold tstep at hx
    simp only at hx
    rcases List.mem_append.mp hx with hl | hr
    · exact h1 x hl
    · exact h2 a x hr

theorem allActs_tact {α : Type} (p : Act → Bool) (a : Act) (res : Except String α)
    (h : p a = true) : AllActs p (tact a res) := by
  intro x hx
  have hxa : x = a := List.mem_singleton.mp hx
  rw [hxa]
  exact h

theorem allActs_tpure {α : Type} (p : Act → Bool) (a : α) : AllActs p (tpure a) := by
  intro x hx
  exact absurd hx (List.not_mem_nil x)

theorem allActs_tforEach {α : Type} (p : Act → Bool) (f : α → TR Unit)
    (hf : ∀ x, AllActs p (f x)) : ∀ l, AllActs p (tforEach f l) := by
  intro l
  induction l with
  | nil => exact allActs_tpure p ()
  | cons x xs ih => exact allActs_tstep p (f x) _ (hf x) (fun _ => ih)

/-- Predicates satisfied by every action of the synchronization phase:
fetches, writes and directory operations only. -/
def isSyncAction : Act → Bool
  | .fetch _ => true
  | .write _ => true
  | .mkdir _ => true
  | .removeAll _ => true
  | .clearFiles _ => true
  | _ => false

theorem fetchPlainIDEnvStuff_sync (o : Oracle) (cfgEnvs : List CfgEnv)
    (envDir envID : String) :
    AllActs isSyncAction (fetchPlainIDEnvStuff o cfgEnvs envDir envID) := by
  unfold fetchPlainIDEnvStuff
  cases findEnvironment cfgEnvs envID with
  | none => exact fun a ha => absurd ha (List.not_mem_nil a)
  | some env =>
    apply allActs_tstep
    · apply allActs_tforEach
      intro identity
      apply allActs_tstep
      · exact allActs_tact _ _ _ rfl
      · intro body
        exact allActs_tact _ _ _ rfl
    · intro _
      apply allActs_tstep
      · exact allActs_tact _ _ _ rfl
      · intro groups
        apply allActs_tforEach
        intro g
        exact allActs_tact _ _ _ rfl

theorem fetchPlainIDWSStuff_sync (o : Oracle) (cfgEnvs : List CfgEnv)
    (wsDir envID wsID : String) :
    AllActs isSyncAction (fetchPlainIDWSStuff o cfgEnvs wsDir envID wsID) := by
  unfold fetchPlainIDWSStuff
  apply allActs_tstep
  · exact allActs_tact _ _ _ rfl
  · intro apps
    apply allActs_tstep
    · exact allActs_tact _ _ _ rfl
    · intro atIds
      apply allActs_tstep
      · apply allActs_tforEach
        intro q
        apply allActs_tstep
        · exact allActs_tact _ _ _ rfl
        · intro body
          exact allActs_tact _ _ _ rfl
      · intro _
        cases findEnvironment cfgEnvs envID with
        | none => exact fun a ha => absurd ha (List.not_mem_nil a)
        | some env =>
          apply allActs_tforEach
          intro app
          apply allActs_tstep
          · exact allActs_tact _ _ _ rfl
          · intro _
            apply allActs_tstep
            · exact allActs_tact _ _ _ rfl
            · intro _
              apply allActs_tstep
              · exact allActs_tact _ _ _ rfl
              · intro pols
                apply allActs_tstep
                · apply allActs_tforEach
                  intro q
                  exact allActs_tact _ _ _ rfl
                · intro _
                  apply allActs_tstep
                  · exact allActs_tact _ _ _ rfl
                  · intro m
                    exact allActs_tact _ _ _ rfl

theorem processEnvs_sync (o : Oracle) (cfgEnvs : List CfgEnv) (tempDir : String) :
    AllActs isSyncAction (processEnvs o cfgEnvs tempDir) := by
  unfold processEnvs
  apply allActs_tforEach
  intro env
  apply allActs_tstep
  · exact allActs_tact _ _ _ rfl
  · intro _
    apply allActs_tstep
    · exact allActs_tact _ _ _ rfl
    · intro _
      apply allActs_tstep
      · exact fetchPlainIDEnvStuff_sync o cfgEnvs _ env.id
      · intro _
        apply allActs_tforEach
        intro ws
        apply allActs_tstep
        · exact allActs_tact _ _ _ rfl
        · intro _
          apply allActs_tstep
          · exact allActs_tact _ _ _ rfl
          · intro _
            exact fetchPlainIDWSStuff_sync o cfgEnvs _ env.id ws.id

theorem sync_not_commitPhase (a : Act) (h : isSyncAction a = true) :
    isCommitPhase a = false := by
  cases a <;> simp_all [isSyncAction, isCommitPhase]

/-- C8: when any fetch, write or directory operation of the
synchronization phase fails, the backup run ends with an error and its
trace holds no staging, commit, tag-creation or push action; conversely a
commit action appears in the trace only when the whole synchronization
phase succeeded. -/
theorem c8_fetch_failure_aborts (o : Oracle) (cfgEnvs : List CfgEnv) (now : DateTime)
    (newRepo dry : Bool) :
    ((∀ td, ∃ e, (processEnvs o cfgEnvs td).2 = Except.error e) →
      ((backupRun o cfgEnvs now newRepo dry).1.any isCommitPhase = false ∧
       ∃ e2, (backupRun o cfgEnvs now newRepo dry).2 = Except.error e2)) ∧
    ((∃ m, Act.commit m ∈ (backupRun o cfgEnvs now newRepo dry).1) →
      ∃ td, o.createTmp = Except.ok td ∧ (processEnvs o cfgEnvs td).2 = Except.ok ()) := by
  constructor
  · intro hfail
    rcases hct : o.createTmp with e | td
    · unfold backupRun
      rw [hct]
      simp only [tact, tstep]
      exact ⟨by simp [isCommitPhase], ⟨e, rfl⟩⟩
    · rcases hcl : o.cloneRem with e | u
      · unfold backupRun
        rw [hct, hcl]
        simp only [tact, tstep]
        exact ⟨by simp [isCommitPhase], ⟨e, by simp⟩⟩
      · rcases hpe : processEnvs o cfgEnvs td with ⟨ptr, pres⟩
        cases pres with
        | error e =>
          have hsync : ∀ a ∈ ptr, isSyncAction a = true := by
            have h0 := processEnvs_sync o cfgEnvs td
            rw [hpe] at h0
            exact h0
          unfold backupRun
          rw [hct, hcl]
          simp only [tact, tstep]
          rw [hpe]
          simp only [tstep]
          constructor
          · rw [List.any_eq_false]
            intro a ha
            simp only [List.cons_append, List.nil_append, List.mem_cons] at ha
            rcases ha with rfl | rfl | hmem
            · simp [isCommitPhase]
            · simp [isCommitPhase]
            · simp [sync_not_commitPhase a (hsync a hmem)]
          · exact ⟨e, by simp⟩
        | ok uu =>
          obtain ⟨e, he⟩ := hfail td
          rw [hpe] at he
          exact absurd he (by simp)
  · intro hm
    obtain ⟨m, hm⟩ := hm
    rcases hct : o.createTmp with e | td
    · unfold backupRun at hm
      rw [hct] at hm
      simp only [tact, tstep] at hm
      simp at hm
    · rcases hcl : o.cloneRem with e | u
      · unfold backupRun at hm
        rw [hct, hcl] at hm
        simp only [tact, tstep] at hm
        simp at hm
      · rcases hpe : processEnvs o cfgEnvs td with ⟨ptr, pres⟩
        cases pres with
        | error e =>
          have hsync : ∀ a ∈ ptr, isSyncAction a = true := by
            have h0 := processEnvs_sync o cfgEnvs td
            rw [hpe] at h0
            exact h0
          unfold backupRun at hm
          rw [hct, hcl] at hm
          simp only [tact, tstep] at hm
          rw [hpe] at hm
          simp only [tstep, List.cons_append, List.nil_append, List.mem_cons] at hm
          rcases hm with hm | hm | hm
          · exact Act.noConfusion hm
          · exact Act.noConfusion hm
          · have := hsync _ hm
            simp [isSyncAction] at this
        | ok uu =>
          cases uu
          exact ⟨td, rfl, by rw [hpe]⟩

/-- C8 witness: a run whose application fetch fails commits nothing. -/
theorem c8_fetch_failure_aborts_witness :
    (backupRun oracleFetchFail [sampleEnv] sampleNow false false).1.any
      isCommitPhase = false ∧
    ∃ e2, (backupRun oracleFetchFail [sampleEnv] sampleNow false false).2 =
      Except.error e2 :=
  (c8_fetch_failure_aborts oracleFetchFail [sampleEnv] sampleNow false false).1
    (fun td => ⟨"fetch failed", rfl⟩)

theorem backupRun_dry_no_push (o : Oracle) (cfgEnvs : List CfgEnv) (now : DateTime)
    (newRepo : Bool) : Act.push ∉ (backupRun o cfgEnvs now newRepo true).1 := by
  have hall : AllActs (fun a => a != Act.push) (backupRun o cfgEnvs now newRepo true) := by
    unfold backupRun
    apply allActs_tstep
    · exact allActs_tact _ _ _ rfl
    · intro tempDir
      apply allActs_tstep
      · exact allActs_tact _ _ _ rfl
      · intro _
        apply allActs_tstep
        · intro a ha
          have hs := processEnvs_sync o cfgEnvs tempDir a ha
          cases a <;> simp_all [isSyncAction]
        · intro _
          apply allActs_tstep
          · exact allActs_tact _ _ _ rfl
          · intro _
            apply allActs_tstep
            · exact allActs_tact _ _ _ rfl
            · intro commitHash
              apply allActs_tstep
              · by_cases hnr : newRepo = true
                · rw [if_pos hnr]
                  exact allActs_tact _ _ _ rfl
                · rw [if_neg hnr]
                  exact allActs_tpure _ _
              · intro _
                apply allActs_tstep
                · exact allActs_tact _ _ _ rfl
                · intro _
                  rw [if_pos rfl]
                  exact allActs_tpure _ _
  intro hmem
  have hp := hall Act.push hmem
  simp at hp

set_option maxRecDepth 100000 in
/-- C9: a dry-run backup issues no push action while still committing and
creating its tag locally, and a dry-run restore performs no upload action;
however, because the restore never clones the snapshot, its destination
receives no files at all (an empty destination stays empty), contrary to
the claim that the snapshot files are written into it. -/
theorem c9_dry_run_non_mutation :
    (∀ (o : Oracle) (cfgEnvs : List CfgEnv) (now : DateTime) (newRepo : Bool),
      Act.push ∉ (backupRun o cfgEnvs now newRepo true).1) ∧
    (backupRun oracleOk [sampleEnv] sampleNow false true).1.any
      (fun a => a == Act.commit (commitMessage [sampleEnv])) = true ∧
    (backupRun oracleOk [sampleEnv] sampleNow false true).1.any
      (fun a => a == Act.createTag (formatTimestamp sampleNow)) = true ∧
    (∀ (cfgEnvs : List CfgEnv) (tag targetDir : String) (dest : List FsEntry),
      Act.upload ∉ (restoreRun cfgEnvs tag targetDir "" "" dest true).1) ∧
    (restoreRun [] "20230115-120000" "/restore-dest" "" "" [] true).2 = Except.ok [] := by
  refine ⟨backupRun_dry_no_push, by decide, by decide, ?_, ?_⟩
  · intro cfgEnvs tag targetDir dest
    simp [restoreRun]
  · simp [restoreRun, copyDirEntries]

theorem digitChar_congr {m n : Nat} (h : m % 10 = n % 10) : digitChar m = digitChar n := by
  unfold digitChar
  rw [h]

theorem digitVal_digitChar (d : Nat) : digitVal (digitChar d) = some (d % 10) := by
  unfold digitChar
  have h : d % 10 < 10 := Nat.mod_lt _ (by omega)
  set k := d % 10 with hk
  interval_cases k <;> rfl

theorem d2v_digits (x : Nat) (h : x < 100) :
    d2v (digitChar (x / 10)) (digitChar x) = some x := by
  unfold d2v
  rw [digitVal_digitChar, digitVal_digitChar]
  show some (10 * (x / 10 % 10) + x % 10) = some x
  exact congrArg some (by omega)

theorem d4v_digits (x : Nat) (h : x < 10000) :
    d4v (digitChar (x / 1000)) (digitChar (x / 100)) (digitChar (x / 10)) (digitChar x) =
      some x := by
  unfold d4v
  rw [digitVal_digitChar, digitVal_digitChar, digitVal_digitChar, digitVal_digitChar]
  show some (1000 * (x / 1000 % 10) + 100 * (x / 100 % 10) + 10 * (x / 10 % 10) + x % 10) =
    some x
  exact congrArg some (by omega)

theorem digitVal_some (c : Char) (x : Nat) (h : digitVal c = some x) :
    x < 10 ∧ c = digitChar x := by
  unfold digitVal at h
  split at h
  all_goals first
    | exact Option.noConfusion h
    | (injection h with h2
       subst h2
       exact ⟨by omega, rfl⟩)

theorem d2v_some (a b : Char) (x : Nat) (h : d2v a b = some x) :
    a = digitChar (x / 10) ∧ b = digitChar x ∧ x < 100 := by
  unfold d2v at h
  split at h
  case h_1 va vb heqa heqb =>
    obtain ⟨hva, ha⟩ := digitVal_some a va heqa
    obtain ⟨hvb, hb⟩ := digitVal_some b vb heqb
    injection h with hx
    subst hx
    refine ⟨?_, ?_, by omega⟩
    · rw [ha]
      exact digitChar_congr (by omega)
    · rw [hb]
      exact digitChar_congr (by omega)
  case h_2 => exact Option.noConfusion h

theorem d4v_some (a b c d : Char) (x : Nat) (h : d4v a b c d = some x) :
    a = digitChar (x / 1000) ∧ b = digitChar (x / 100) ∧ c = digitChar (x / 10) ∧
      d = digitChar x ∧ x < 10000 := by
  unfold d4v at h
  split at h
  case h_1 va vb vc vd heqa heqb heqc heqd =>
    obtain ⟨hva, ha⟩ := digitVal_some a va heqa
    obtain ⟨hvb, hb⟩ := digitVal_some b vb heqb
    obtain ⟨hvc, hc⟩ := digitVal_some c vc heqc
    obtain ⟨hvd, hd⟩ := digitVal_some d vd heqd
    injection h with hx
    subst hx
    refine ⟨?_, ?_, ?_, ?_, by omega⟩
    · rw [ha]
      exact digitChar_congr (by omega)
    · rw [hb]
      exact digitChar_congr (by omega)
    · rw [hc]
      exact digitChar_congr (by omega)
    · rw [hd]
      exact digitChar_congr (by omega)
  case h_2 => exact Option.noConfusion h

theorem daysIn_le (mo y : Nat) : daysIn mo y ≤ 31 := by
  unfold daysIn
  split_ifs <;> omega

theorem parse_format_roundtrip (t : DateTime) (h : validDT t) :
    parseTimestamp (formatTimestamp t) = some t := by
  obtain ⟨hy, hm1, hm2, hd1, hd2, hh, hmi, hs⟩ := h
  show parseTimestamp (String.mk (pad4 t.year ++ pad2 t.month ++ pad2 t.day ++ ['-'] ++
    pad2 t.hour ++ pad2 t.minute ++ pad2 t.second)) = some t
  unfold pad4 pad2
  show (if ('-' : Char) = '-' then
      match d4v (digitChar (t.year / 1000)) (digitChar (t.year / 100))
          (digitChar (t.year / 10)) (digitChar t.year),
        d2v (digitChar (t.month / 10)) (digitChar t.month),
        d2v (digitChar (t.day / 10)) (digitChar t.day),
        d2v (digitChar (t.hour / 10)) (digitChar t.hour),
        d2v (digitChar (t.minute / 10)) (digitChar t.minute),
        d2v (digitChar (t.second / 10)) (digitChar t.second) with
      | some y, some mo, some dd, some hh2, some mi, some ss =>
        if 1 ≤ mo ∧ mo ≤ 12 ∧ 1 ≤ dd ∧ dd ≤ daysIn mo y ∧ hh2 ≤ 23 ∧ mi ≤ 59 ∧ ss ≤ 59 then
          some (DateTime.mk y mo dd hh2 mi ss)
        else none
      | _, _, _, _, _, _ => none
    else none) = some t
  have hd31 := daysIn_le t.month t.year
  rw [if_pos rfl, d4v_digits t.year (by omega), d2v_digits t.month (by omega),
    d2v_digits t.day (by omega), d2v_digits t.hour (by omega),
    d2v_digits t.minute (by omega), d2v_digits t.second (by omega)]
  show (if 1 ≤ t.month ∧ t.month ≤ 12 ∧ 1 ≤ t.day ∧ t.day ≤ daysIn t.month t.year ∧
      t.hour ≤ 23 ∧ t.minute ≤ 59 ∧ t.second ≤ 59 then
      some (DateTime.mk t.year t.month t.day t.hour t.minute t.second)
    else none) = some t
  rw [if_pos ⟨hm1, hm2, hd1, hd2, hh, hmi, hs⟩]

theorem parseTimestamp_exact (s : String) (t : DateTime)
    (h : parseTimestamp s = some t) : s = formatTimestamp t ∧ validDT t := by
  unfold parseTimestamp at h
  split at h
  case h_2 => exact Option.noConfusion h
  case h_1 a1 a2 a3 a4 b1 b2 c1 c2 sep e1 e2 f1 f2 g1 g2 heq =>
    split at h
    case isFalse => exact Option.noConfusion h
    case isTrue hsep =>
      split at h
      case h_2 => exact Option.noConfusion h
      case h_1 y mo dd hh mi ss heq4 heqm heqd heqh heqmi heqs =>
        split at h
        case isFalse => exact Option.noConfusion h
        case isTrue hvalid =>
          injection h with ht
          obtain ⟨ha1, ha2, ha3, ha4, hylt⟩ := d4v_some a1 a2 a3 a4 y heq4
          obtain ⟨hb1, hb2, hmlt⟩ := d2v_some b1 b2 mo heqm
          obtain ⟨hc1, hc2, hdlt⟩ := d2v_some c1 c2 dd heqd
          obtain ⟨he1, he2, hhlt⟩ := d2v_some e1 e2 hh heqh
          obtain ⟨hf1, hf2, hmilt⟩ := d2v_some f1 f2 mi heqmi
          obtain ⟨hg1, hg2, hslt⟩ := d2v_some g1 g2 ss heqs
          obtain ⟨hv1, hv2, hv3, hv4, hv5, hv6, hv7⟩ := hvalid
          subst ht
          constructor
          · apply strExt
            rw [heq]
            show _ = (pad4 y ++ pad2 mo ++ pad2 dd ++ ['-'] ++ pad2 hh ++ pad2 mi ++ pad2 ss)
            unfold pad4 pad2
            rw [ha1, ha2, ha3, ha4, hb1, hb2, hc1, hc2, hsep, he1, he2, hf1, hf2, hg1, hg2]
            rfl
          · refine ⟨?_, hv1, hv2, hv3, hv4, hv5, hv6, hv7⟩
            show y ≤ 9999
            omega

/-- C4 amended: every backup run names its snapshot tag with the current
time formatted as YYYYMMDD-HHMMSS (second resolution, a dash between date
and time), and the snapshot catalog recognizes exactly the tag names that
parse under that same format: formatting then parsing returns the same
time, and any tag name the catalog accepts is the formatted rendering of
the parsed time. -/
theorem c4_tag_format_roundtrip :
    (∀ t : DateTime, validDT t → parseTimestamp (formatTimestamp t) = some t) ∧
    (∀ (s : String) (t : DateTime), parseTimestamp s = some t →
      s = formatTimestamp t ∧ validDT t) :=
  ⟨parse_format_roundtrip, parseTimestamp_exact⟩

/-- C4 witness at a concrete time. -/
theorem c4_tag_format_roundtrip_witness :
    validDT sampleNow ∧ parseTimestamp (formatTimestamp sampleNow) = some sampleNow :=
  ⟨by decide, c4_tag_format_roundtrip.1 sampleNow (by decide)⟩

/-- C4 counterexample: the tag the backup creates for the sample time is
20230115-120000, which is fifteen characters with a dash, not a
fourteen-digit YYYYMMDDHHMMSS name, while the catalog still recognizes it;
so the claimed no-separator format is wrong and the dash format is what
both sides use. -/
theorem c4_counterexample :
    formatTimestamp sampleNow = "20230115-120000" ∧
    claimTagFormat (formatTimestamp sampleNow) = false ∧
    parseTimestamp (formatTimestamp sampleNow) = some sampleNow := by
  refine ⟨by decide, by decide, by decide⟩
